import Mathlib

set_option maxRecDepth 8000

/-!
Verification development for the turbopack-webpack-example build tooling.

Two subsystems are embedded shallowly:

* the on-demand dev-server broker (third file of src/unnamed/part_002):
  module state, `reset`, `spawnWebpackForEntry` (the spec's `ensureWorker`)
  and `findRootEntryForAsset` (the spec's `resolveEntryFor`);
* the style import resolver (src/packages/postcss-import/index.js):
  discovery of import records and root-invocation injection.

JavaScript strings, arrays, Sets and thrown errors are modelled with
`String`, `List` and `Except`.  Machine-level concerns do not arise: all
quantities are small naturals and strings.
-/

/-- Errors raised by the embedded JavaScript code of the broker module. -/
inductive JsErr where
  | referenceError (name : String)
  | typeError (msg : String)
deriving DecidableEq, Repr

/-- Decidable equality of `Except` results, used to settle concrete runs. -/
instance exceptDecEq {ε α : Type} [DecidableEq ε] [DecidableEq α] :
    DecidableEq (Except ε α) := fun x y =>
  match x, y with
  | .ok a, .ok b =>
    if h : a = b then isTrue (by rw [h]) else isFalse (fun hh => by cases hh; exact h rfl)
  | .ok _, .error _ => isFalse (fun hh => by cases hh)
  | .error _, .ok _ => isFalse (fun hh => by cases hh)
  | .error e, .error f =>
    if h : e = f then isTrue (by rw [h]) else isFalse (fun hh => by cases hh; exact h rfl)

/-- Index of the last occurrence of a character, accumulator form. -/
def lastIdxOfAux (c : Char) : List Char → Nat → Option Nat → Option Nat
  | [], _, acc => acc
  | x :: xs, i, acc => lastIdxOfAux c xs (i + 1) (if x == c then some i else acc)

/-- Index of the last occurrence of a character in a character list. -/
def lastIdxOf (cs : List Char) (c : Char) : Option Nat :=
  lastIdxOfAux c cs 0 none

/-- JavaScript `s.slice(-n)`: the last `n` characters (the whole string when shorter). -/
def jsSliceNeg (s : String) (n : Nat) : String :=
  let cs := s.toList
  String.mk (cs.drop (cs.length - n))

/-- JavaScript `s.slice(0, -n)`: drop the last `n` characters. -/
def jsDropLast (s : String) (n : Nat) : String :=
  let cs := s.toList
  String.mk (cs.take (cs.length - n))

/-- Whether the first list is an initial segment of the second. -/
def leadsWith : List Char → List Char → Bool
  | [], _ => true
  | _ :: _, [] => false
  | p :: ps, c :: cs => p == c && leadsWith ps cs

/-- Whether `pat` occurs as a contiguous sublist. -/
def hasSubstr (pat : List Char) : List Char → Bool
  | [] => leadsWith pat []
  | c :: cs => leadsWith pat (c :: cs) || hasSubstr pat cs

/-- JavaScript `s.includes(pat)`. -/
def jsIncludes (s pat : String) : Bool :=
  hasSubstr pat.toList s.toList

/-- JavaScript `s.startsWith(p)` (structural, so that concrete runs reduce). -/
def jsStartsWith (s p : String) : Bool :=
  leadsWith p.toList s.toList

/-- Split a character list on a separator character. -/
def splitOnCharAux (c : Char) : List Char → List Char → List String
  | [], acc => [String.mk acc.reverse]
  | x :: xs, acc =>
    if x == c then String.mk acc.reverse :: splitOnCharAux c xs []
    else splitOnCharAux c xs (x :: acc)

/-- Split a string on a separator character. -/
def splitOnChar (c : Char) (s : String) : List String :=
  splitOnCharAux c s.toList []

/-- Scan of Node's posix `path.dirname`: walking from the end of the string
(the reversed characters are given, `i` is the current index, stopping at
index 0), return the index of the slash that ends the directory part. -/
def jsDirnameEnd : List Char → Nat → Bool → Option Nat
  | [], _, _ => none
  | c :: rest, i, matchedSlash =>
    if i == 0 then none
    else if c == '/' then
      if !matchedSlash then some i else jsDirnameEnd rest (i - 1) matchedSlash
    else jsDirnameEnd rest (i - 1) false

/-- Node's posix `path.dirname`. -/
def jsDirname (p : String) : String :=
  let cs := p.toList
  if cs.isEmpty then (".") else
  let hasRoot := cs.head? == some '/'
  match jsDirnameEnd cs.reverse (cs.length - 1) true with
  | none => if hasRoot then ("/") else (".")
  | some e => if hasRoot && e == 1 then ("//") else String.mk (cs.take e)

/-- Node's posix `path.parse`, restricted to the `dir` and `name` fields and
to paths without trailing slashes (the only shape the broker feeds it). -/
def jsParseDirName (p : String) : String × String :=
  let cs := p.toList
  let dirBase : String × List Char :=
    match lastIdxOf cs '/' with
    | none => (("") , cs)
    | some i => (if i == 0 then ("/") else String.mk (cs.take i), cs.drop (i + 1))
  let base := dirBase.2
  let name : List Char :=
    if base == ['.', '.'] then base else
    match lastIdxOf base '.' with
    | none => base
    | some 0 => base
    | some j => base.take j
  (dirBase.1, String.mk name)

/-- Normalisation of path segments used by Node's posix `path.join`. -/
def normSegs (absolute : Bool) : List String → List String → List String
  | acc, [] => acc.reverse
  | acc, s :: rest =>
    if s == ("") || s == (".") then normSegs absolute acc rest
    else if s == ("..") then
      match acc with
      | [] => if absolute then normSegs absolute [] rest else normSegs absolute [s] rest
      | a :: tl =>
        if a == ("..") then normSegs absolute (s :: a :: tl) rest
        else normSegs absolute tl rest
    else normSegs absolute (s :: acc) rest

/-- Node's posix `path.join` of two segments, the default resolve strategy of
the import plugin (src/packages/postcss-import/index.js line 39). -/
def jsPathJoin (a b : String) : String :=
  let joined := if a == ("") then b else if b == ("") then a else a ++ ("/") ++ b
  let absolute := jsStartsWith joined ("/")
  let out := String.intercalate ("/") (normSegs absolute [] (splitOnChar '/' joined))
  let out := if absolute then ("/") ++ out else out
  if out == ("") then (".") else out

/-! ## On-demand dev-server broker (src/unnamed/part_002, third file) -/

/-- Observable lifecycle events performed by the broker, in program order. -/
inductive BrokerEvent where
  | closeHttp
  | killWorker (id : Nat)
  | spawnWorker (id : Nat) (entryTarget : List String)
deriving DecidableEq, Repr

/-- Module-level mutable state of the broker file.  The field
`webpackEntryPoints` is an `Option`: the source comments out the declaration
`const webpackEntryPoints = new Set()` on line 308, so in the actual module
the binding is undeclared, modelled as `none`; dereferencing it then raises
`ReferenceError`.  A worker handle is identified by the `Nat` issued at its
spawn; `events` records closes, kills and spawns in execution order. -/
structure BrokerState where
  httpServer : Bool
  webpackEntryPoints : Option (List String)
  webpackDevServer : Option Nat
  events : List BrokerEvent
  nextId : Nat
deriving DecidableEq, Repr

/-- State of the broker module right after its top-level `let` declarations:
no http server, no worker, and the tracked-entry-set binding undeclared. -/
def initialBrokerState : BrokerState :=
  { httpServer := false
    webpackEntryPoints := none
    webpackDevServer := none
    events := []
    nextId := 0 }

/-- The broker state as it would be had line 308 not been commented out:
identical except that the tracked entry set exists and is empty. -/
def brokerDeclaredInit : BrokerState :=
  { initialBrokerState with webpackEntryPoints := some [] }

/-- Embeds the module top level of the broker file: line 309 evaluates
`exports.webpackEntryPoints = webpackEntryPoints`, dereferencing the
(undeclared, see `BrokerState`) binding before anything else can run. -/
def brokerModuleLoad : Except JsErr BrokerState :=
  match initialBrokerState.webpackEntryPoints with
  | none => .error (.referenceError ("webpackEntryPoints"))
  | some _ => .ok initialBrokerState

/-- Embeds `spawnWebpackForEntry` (lines 518-569), the spec's
`ensureWorker`.  `entryTargets.some(t => !webpackEntryPoints.has(t))` calls
its callback only on a non-empty list, so an empty call returns
`reused: true` without touching the set; otherwise the first callback
invocation dereferences `webpackEntryPoints`.  On new targets it adds them
to the set, kills the previous worker if any, and spawns a worker whose
`ENTRY_TARGET` is the full tracked set.  The returned `Bool` is the `reused`
field of the result object. -/
def spawnWebpackForEntry (st : BrokerState) (entryTargets : List String) :
    Except JsErr (Bool × BrokerState) :=
  match entryTargets with
  | [] => .ok (true, st)
  | t :: rest =>
    match st.webpackEntryPoints with
    | none => .error (.referenceError ("webpackEntryPoints"))
    | some eps =>
      let hasNewTargets := (t :: rest).any (fun tgt => !(eps.contains tgt))
      if !hasNewTargets then .ok (true, st)
      else
        let eps2 := (t :: rest).foldl
          (fun acc tgt => if acc.contains tgt then acc else acc ++ [tgt]) eps
        let killEv : List BrokerEvent :=
          match st.webpackDevServer with
          | some w => [BrokerEvent.killWorker w]
          | none => []
        let id := st.nextId
        .ok (false,
          { httpServer := st.httpServer
            webpackEntryPoints := some eps2
            webpackDevServer := some id
            events := st.events ++ killEv ++ [BrokerEvent.spawnWorker id eps2]
            nextId := id + 1 })

/-- Embeds `reset` (lines 336-351): close the http server if present, then
`webpackEntryPoints.clear()` (which dereferences the undeclared binding in
the actual module), then kill and clear the worker handle. -/
def brokerReset (st : BrokerState) : Except JsErr BrokerState :=
  let st1 :=
    if st.httpServer then
      { st with httpServer := false, events := st.events ++ [BrokerEvent.closeHttp] }
    else st
  match st1.webpackEntryPoints with
  | none => .error (.referenceError ("webpackEntryPoints"))
  | some _ =>
    let st2 := { st1 with webpackEntryPoints := some [] }
    let st3 :=
      match st2.webpackDevServer with
      | some w => { st2 with events := st2.events ++ [BrokerEvent.killWorker w] }
      | none => st2
    .ok { st3 with webpackDevServer := none }

/-- Projection of the `reused` field from a `spawnWebpackForEntry` result. -/
def spawnReused (r : Except JsErr (Bool × BrokerState)) : Option Bool :=
  match r with
  | .ok p => some p.1
  | .error _ => none

/-- Inner loop over a target's style entries in `findRootEntryForAsset`
(lines 475-492).  For each style entry the code computes the entry's
basename, strips a possible `.rtl` suffix from the requested asset, and then
- since `assetWithoutRTL` is declared `const` on line 481 but reassigned on
line 485 - throws `TypeError` whenever the asset starts with `src/less/`;
otherwise it compares the basename with the stripped asset. -/
def cssEntriesLoop (asset : String) : List String → Bool → Except JsErr Bool
  | [], hasMatch => .ok hasMatch
  | cssEntry :: rest, hasMatch =>
    let pr := jsParseDirName cssEntry
    let basename := pr.1 ++ ("/") ++ pr.2
    let hasRTL := jsSliceNeg asset 4 == (".rtl")
    let assetWithoutRTL := if hasRTL then jsDropLast asset 4 else asset
    if jsStartsWith assetWithoutRTL ("src/less/") then
      .error (.typeError ("Assignment to constant variable."))
    else
      cssEntriesLoop asset rest
        (if !hasMatch && basename == assetWithoutRTL then true else hasMatch)

/-- JavaScript truthiness of the `rootEntry` variable: `undefined` and the
empty string are falsy. -/
def jsTruthyStr : Option String → Bool
  | none => false
  | some s => !(s == (""))

/-- Outer loop of `findRootEntryForAsset` over the configured entry targets
(lines 459-498): skip once a truthy root entry was found, match script
entries by equality with the asset, run the style-entry loop, and on a match
take the first script entry of the target. -/
def findRootEntryLoop (asset : String) :
    List (List String × List String) → Option String → Except JsErr (Option String)
  | [], rootEntry => .ok rootEntry
  | (jsEntries, cssEntries) :: rest, rootEntry =>
    if jsTruthyStr rootEntry then findRootEntryLoop asset rest rootEntry
    else
      match cssEntriesLoop asset cssEntries (jsEntries.any (fun j => j == asset)) with
      | .error e => .error e
      | .ok hasMatch =>
        findRootEntryLoop asset rest (if hasMatch then jsEntries.head? else rootEntry)

/-- Embeds `findRootEntryForAsset` (lines 453-501), the spec's
`resolveEntryFor`, parameterized by the configured entry points: each entry
target is a pair of its script list and its style list. -/
def findRootEntryForAsset (entryPoints : List (List String × List String))
    (asset : String) : Except JsErr (Option String) :=
  findRootEntryLoop asset entryPoints none

/-! ## Style import resolver (src/packages/postcss-import/index.js)

The resolver mutates a shared syntax tree: import records alias nodes that
are later spliced into several containers, so nodes live in a heap and are
referenced by allocation index, mirroring JavaScript object identity.  The
plugin instance modelled here has `options.plugins` unset (the plugin's
default), so the nested postcss invocation on line 95 only parses, and
nested imports are discovered by the recursive `findImports` call on
line 133.  An import node's `fromInclusionRule` tag is modelled as present
and non-empty via `Option`.  Recursions that walk the heap take a fuel
bound; concrete runs get ample fuel and general theorems quantify over it. -/

/-- Value tree of style-sheet nodes: the parsed shape stored in the modelled
file system and the shape produced by materialising the heap at the end of
a run.  `before` embeds `raws.before`, the whitespace the serializer emits
ahead of the node. -/
inductive CNode where
  | importNode (before : String) (filename : String) (fromInclusionRule : Option String)
  | rule (before : String) (selector : String) (nodes : List CNode)
  | decl (before : String) (text : String)
  | comment (before : String) (text : String)
deriving Repr

/-- Heap node: like `CNode` but with children as heap references, so that
mutation through one alias is seen through all others, as for the shared
postcss node objects. -/
inductive HNode where
  | importNode (before : String) (filename : String) (fromInclusionRule : Option String)
  | rule (before : String) (selector : String) (nodes : List Nat)
  | decl (before : String) (text : String)
  | comment (before : String) (text : String)
deriving DecidableEq, Repr

/-- Node heap; a node's identity is its allocation index. -/
structure Heap where
  nodes : List HNode
deriving DecidableEq, Repr

/-- Read a heap node. -/
def Heap.get (h : Heap) (i : Nat) : Option HNode :=
  h.nodes.get? i

/-- Overwrite a heap node in place. -/
def Heap.set (h : Heap) (i : Nat) (n : HNode) : Heap :=
  ⟨h.nodes.set i n⟩

/-- Children of a rule node, the empty list for everything else. -/
def heapChildren (h : Heap) (id : Nat) : List Nat :=
  match h.get id with
  | some (.rule _ _ children) => children
  | _ => []

/-- Replace the `raws.before` of a node. -/
def hSetBefore (n : HNode) (b : String) : HNode :=
  match n with
  | .importNode _ f r => .importNode b f r
  | .rule _ s c => .rule b s c
  | .decl _ t => .decl b t
  | .comment _ t => .comment b t

mutual
/-- Allocate a value tree into the heap, returning the new heap and the id. -/
def allocTree (h : Heap) : CNode → Heap × Nat
  | .importNode b f r => (⟨h.nodes ++ [HNode.importNode b f r]⟩, h.nodes.length)
  | .decl b t => (⟨h.nodes ++ [HNode.decl b t]⟩, h.nodes.length)
  | .comment b t => (⟨h.nodes ++ [HNode.comment b t]⟩, h.nodes.length)
  | .rule b sel children =>
    let pr := allocTrees h children
    (⟨pr.1.nodes ++ [HNode.rule b sel pr.2]⟩, pr.1.nodes.length)

/-- Allocate a list of value trees, left to right. -/
def allocTrees (h : Heap) : List CNode → Heap × List Nat
  | [] => (h, [])
  | c :: cs =>
    let pr := allocTree h c
    let pr2 := allocTrees pr.1 cs
    (pr2.1, pr.2 :: pr2.2)
end

/-- Materialise heap nodes back into value trees; the fuel bounds the total
number of visited nodes (splices can in principle build cyclic documents). -/
def materializeList (h : Heap) : Nat → List Nat → Option (List CNode)
  | 0, _ => none
  | _ + 1, [] => some []
  | fuel + 1, i :: is =>
    match h.get i with
    | none => none
    | some (.importNode b f r) =>
      match materializeList h fuel is with
      | none => none
      | some cs => some (CNode.importNode b f r :: cs)
    | some (.decl b t) =>
      match materializeList h fuel is with
      | none => none
      | some cs => some (CNode.decl b t :: cs)
    | some (.comment b t) =>
      match materializeList h fuel is with
      | none => none
      | some cs => some (CNode.comment b t :: cs)
    | some (.rule b sel children) =>
      match materializeList h fuel children with
      | none => none
      | some inner =>
        match materializeList h fuel is with
        | none => none
        | some cs => some (CNode.rule b sel inner :: cs)

/-- Live parent pointer of an import node, recorded at discovery: the root
document, the top level of an import record's subtree, or a rule node. -/
inductive ParentRef where
  | mainRoot
  | recRoot (j : Nat)
  | ruleNode (id : Nat)
deriving DecidableEq, Repr

/-- Import record (index.js lines 107-123): the resolved subtree's top-level
node ids, the introducing import node and its parent, resolved and
originating paths, the global flag and the inclusion-rule tag set (a JS
`Set`, kept in insertion order). -/
structure ImportRec where
  root : List Nat
  styleNode : Nat
  parentRef : ParentRef
  fullpath : String
  fromPath : String
  isGloballyImported : Bool
  inclusionRules : List String
deriving DecidableEq, Repr

/-- State threaded through discovery: heap, the ordered import list (the
`imports` map and `orderedImports` array always hold the same records, keyed
by `fullpath`), and the log of file reads in order. -/
structure DiscoveryState where
  heap : Heap
  store : List ImportRec
  readLog : List String
deriving DecidableEq, Repr

/-- Plugin options: the pluggable resolve strategy and the modifier string
for inclusion-rule selector matching. -/
structure PluginOpts where
  resolve : Option (String → String → String)
  modifier : Option String

/-- Effective resolve function; defaults to `join(base, uri)` (line 39). -/
def optResolve (o : PluginOpts) : String → String → String :=
  match o.resolve with
  | some f => f
  | none => fun uri base => jsPathJoin base uri

/-- Modifier string as interpolated by the source: an absent option turns
into the text `undefined` inside the template literal. -/
def optModifier (o : PluginOpts) : String :=
  match o.modifier with
  | some m => m
  | none => ("undefined")

/-- JavaScript `filename.replace(/'|"/g, '')`; code point 39 is the single
quote character. -/
def stripQuotes (s : String) : String :=
  String.mk (s.toList.filter (fun c => !(c.toNat == 39 || c == '"')))

/-- Errors out of a resolver run. -/
inductive RErr where
  | fileNotFound (path : String)
  | thrown (msg : String)
  | outOfFuel
  | badNode
deriving DecidableEq, Repr

/-- Index of the first record with the given resolved path. -/
def storeFindIdxGo (p : String) : List ImportRec → Nat → Option Nat
  | [], _ => none
  | r :: rest, i => if r.fullpath == p then some i else storeFindIdxGo p rest (i + 1)

/-- Lookup in the `imports` map: first record index with the given path. -/
def storeFindIdx (store : List ImportRec) (p : String) : Option Nat :=
  storeFindIdxGo p store 0

/-- Index of the first occurrence of an id in an id list. -/
def idxOfGo (t : Nat) : List Nat → Nat → Option Nat
  | [], _ => none
  | x :: xs, i => if x == t then some i else idxOfGo t xs (i + 1)

/-- JavaScript `list.indexOf(id)` returning `none` for `-1`. -/
def idxOf (l : List Nat) (t : Nat) : Option Nat :=
  idxOfGo t l 0

/-- Update the record at an index in place. -/
def storeUpdate (store : List ImportRec) (i : Nat) (f : ImportRec → ImportRec) :
    List ImportRec :=
  match store.get? i with
  | none => store
  | some r => store.set i (f r)

/-- Merge a further reference into an existing record (lines 70-88): a
reference without an inclusion-rule tag promotes the record to
globally-imported status, one with a tag adds the tag to the scope set. -/
def mergeImportRec (r : ImportRec) (fromInclusionRule : Option String) : ImportRec :=
  match fromInclusionRule with
  | none => { r with isGloballyImported := true }
  | some tag =>
    { r with inclusionRules :=
        if r.inclusionRules.contains tag then r.inclusionRules
        else r.inclusionRules ++ [tag] }

/-- Modelled file storage: resolved path to parsed top-level nodes. -/
def fsLookup (fs : List (String × List CNode)) (p : String) : Option (List CNode) :=
  match fs.find? (fun e => e.1 == p) with
  | none => none
  | some e => some e.2

/-- Discovery walk (lines 56-142): sequentially over sibling nodes; an
importing node whose path already has a record merges into it, otherwise the
file is read, parsed (allocated), recorded, and its own tree walked before
the remaining siblings.  Non-import nodes with children are walked in
place.  Every recursive call decrements the fuel. -/
def findImports (opts : PluginOpts) (fs : List (String × List CNode)) :
    Nat → DiscoveryState → List Nat → ParentRef → String → Except RErr DiscoveryState
  | 0, _, _, _, _ => .error .outOfFuel
  | _ + 1, st, [], _, _ => .ok st
  | fuel + 1, st, nid :: rest, parent, fromPath =>
    match st.heap.get nid with
    | none => .error .badNode
    | some (.importNode _ filename0 fromInclusionRule) =>
      let filename := stripQuotes filename0
      let fullpath := optResolve opts filename (jsDirname fromPath)
      match storeFindIdx st.store fullpath with
      | some i =>
        let st2 := { st with
          store := storeUpdate st.store i (fun r => mergeImportRec r fromInclusionRule) }
        findImports opts fs fuel st2 rest parent fromPath
      | none =>
        match fsLookup fs fullpath with
        | none => .error (.fileNotFound fullpath)
        | some contents =>
          let pr := allocTrees st.heap contents
          let recIdx := st.store.length
          let rec0 : ImportRec :=
            { root := pr.2
              styleNode := nid
              parentRef := parent
              fullpath := fullpath
              fromPath := fromPath
              isGloballyImported := fromInclusionRule.isNone
              inclusionRules := fromInclusionRule.toList }
          let st2 : DiscoveryState :=
            { heap := pr.1
              store := st.store ++ [rec0]
              readLog := st.readLog ++ [fullpath] }
          match findImports opts fs fuel st2 pr.2 (ParentRef.recRoot recIdx) fullpath with
          | .error e => .error e
          | .ok st3 => findImports opts fs fuel st3 rest parent fromPath
    | some (.rule _ _ children) =>
      match findImports opts fs fuel st children (ParentRef.ruleNode nid) fromPath with
      | .error e => .error e
      | .ok st2 => findImports opts fs fuel st2 rest parent fromPath
    | some _ => findImports opts fs fuel st rest parent fromPath

/-- State threaded through root-invocation injection: the heap, the record
store, the root document's top-level ids, the queued globally-imported
nodes, and the emitted dependency messages. -/
structure InjState where
  heap : Heap
  store : List ImportRec
  rootIds : List Nat
  sharedDependencies : List Nat
  messages : List String
deriving DecidableEq, Repr

/-- Current node list behind a parent reference. -/
def derefParent (st : InjState) : ParentRef → List Nat
  | .mainRoot => st.rootIds
  | .recRoot j =>
    match st.store.get? j with
    | some r => r.root
    | none => []
  | .ruleNode id => heapChildren st.heap id

/-- Fallback search for the import node's position (lines 179-201): for each
node with children, first look directly among its children, else descend. -/
def recursiveLook (h : Heap) (target : Nat) : Nat → List Nat → Option (Nat × Nat)
  | 0, _ => none
  | _ + 1, [] => none
  | fuel + 1, nid :: rest =>
    match h.get nid with
    | some (.rule _ _ children) =>
      match idxOf children target with
      | some k => some (nid, k)
      | none =>
        match recursiveLook h target fuel children with
        | some r => some r
        | none => recursiveLook h target fuel rest
    | _ => recursiveLook h target fuel rest

/-- Locate the introducing import node (lines 166-202): its live parent's
children first, then the recursive fallback; the result names the container
and the index, `none` when not found anywhere. -/
def locateStyleNode (lookFuel : Nat) (st : InjState) (r : ImportRec) :
    ParentRef × Option Nat :=
  let parentNodes := derefParent st r.parentRef
  match idxOf parentNodes r.styleNode with
  | some k => (r.parentRef, some k)
  | none =>
    match recursiveLook st.heap r.styleNode lookFuel parentNodes with
    | some pr => (ParentRef.ruleNode pr.1, some pr.2)
    | none => (r.parentRef, none)

/-- The node preceding the located import node (line 204); `undefined` when
the import is first or was not located. -/
def prevNodeOf (st : InjState) (loc : ParentRef × Option Nat) : Option Nat :=
  match loc.2 with
  | some (k + 1) => (derefParent st loc.1).get? k
  | _ => none

/-- Remove the first occurrence of an id from a container's children, the
no-op embedding of `safeRemove` when the node is already gone. -/
def containerErase (st : InjState) (c : ParentRef) (id : Nat) : InjState :=
  match c with
  | .mainRoot => { st with rootIds := st.rootIds.erase id }
  | .recRoot j =>
    { st with store := storeUpdate st.store j (fun r => { r with root := r.root.erase id }) }
  | .ruleNode rid =>
    match st.heap.get rid with
    | some (.rule b sel children) =>
      { st with heap := st.heap.set rid (HNode.rule b sel (children.erase id)) }
    | _ => st

/-- Replace a container's children. -/
def containerSetChildren (st : InjState) (c : ParentRef) (l : List Nat) : InjState :=
  match c with
  | .mainRoot => { st with rootIds := l }
  | .recRoot j =>
    { st with store := storeUpdate st.store j (fun r => { r with root := l }) }
  | .ruleNode rid =>
    match st.heap.get rid with
    | some (.rule b sel _) => { st with heap := st.heap.set rid (HNode.rule b sel l) }
    | _ => st

/-- One accumulation step of the selector scan: a rule whose selector is the
wanted one or its modifier-prefixed variant overrides the accumulator, so
the last match wins, as with the source's `forEach` assignment. -/
def matchSelAcc (h : Heap) (selector altSelector : String) (acc : Option Nat)
    (nid : Nat) : Option Nat :=
  match h.get nid with
  | some (.rule _ lookup _) =>
    if lookup == selector || lookup == altSelector then some nid else acc
  | _ => acc

/-- Selector lookup (lines 222-266): last match among the root document's
direct children, else last match among every import record's direct
children. -/
def findSelector (opts : PluginOpts) (st : InjState) (selector : String) : Option Nat :=
  let alt := optModifier opts ++ selector
  match st.rootIds.foldl (matchSelAcc st.heap selector alt) none with
  | some r => some r
  | none =>
    st.store.foldl (fun acc r => r.root.foldl (matchSelAcc st.heap selector alt) acc) none

/-- JavaScript `l.splice(k, 1, ...items)` where `k` may be `-1` (`none`),
in which case splice counts from the end. -/
def jsSpliceAt (l : List Nat) (k : Option Nat) (items : List Nat) : List Nat :=
  let start := match k with
    | some n => min n l.length
    | none => l.length - 1
  l.take start ++ items ++ l.drop (start + 1)

/-- Replacement loop inside a matched scope rule (lines 286-312): iterate a
snapshot of the rule's children; every import node resolving to the record's
path is replaced in the rule's current children by the record's current
subtree nodes. -/
def injectLoop (opts : PluginOpts) (recIdx ruleId : Nat) (fromPath fullpath : String) :
    List Nat → InjState → Bool → InjState × Bool
  | [], st, found => (st, found)
  | cid :: rest, st, found =>
    match st.heap.get cid with
    | some (.importNode _ fname _) =>
      let fullpathCompare := optResolve opts (stripQuotes fname) (jsDirname fromPath)
      if fullpathCompare == fullpath then
        let cur := heapChildren st.heap ruleId
        let k := idxOf cur cid
        let rootNow := match st.store.get? recIdx with
          | some r => r.root
          | none => []
        let st2 := match st.heap.get ruleId with
          | some (.rule b sel _) =>
            { st with heap := st.heap.set ruleId (HNode.rule b sel (jsSpliceAt cur k rootNow)) }
          | _ => st
        injectLoop opts recIdx ruleId fromPath fullpath rest st2 true
      else injectLoop opts recIdx ruleId fromPath fullpath rest st found
    | _ => injectLoop opts recIdx ruleId fromPath fullpath rest st found

/-- Per-inclusion-rule injection (lines 272-325): find the scope rule for
each tag and run the replacement loop in it; a missing scope rule or a
scope without the import to replace throws. -/
def inclusionLoop (opts : PluginOpts) (recIdx : Nat) (fromPath fullpath : String) :
    List String → InjState → Except RErr InjState
  | [], st => .ok st
  | tag :: rest, st =>
    match findSelector opts st ((".") ++ tag) with
    | some ruleId =>
      let snapshot := heapChildren st.heap ruleId
      let pr := injectLoop opts recIdx ruleId fromPath fullpath snapshot st false
      if pr.2 then inclusionLoop opts recIdx fromPath fullpath rest pr.1
      else .error (.thrown (("Unable to inject inclusion import, missing @import ") ++ fullpath))
    | none => .error (.thrown (("Missing inclusion rule selector ") ++ tag))

/-- Injection turn for one record (the `orderedImports.forEach` body, lines
154-338): report the dependency, locate the introducing import node and its
preceding node, give the record subtree's first node a leading blank line,
then either queue the subtree for global prepending or splice it into each
inclusion-rule scope, and finally drop an adjacent plain comment. -/
def processRecord (opts : PluginOpts) (lookFuel : Nat) (st : InjState) (i : Nat) :
    Except RErr InjState :=
  match st.store.get? i with
  | none => .ok st
  | some r =>
    let st := { st with messages := st.messages ++ [r.fullpath] }
    let loc := locateStyleNode lookFuel st r
    let prevNode := prevNodeOf st loc
    let st := match r.root.head? with
      | some id0 =>
        match st.heap.get id0 with
        | some n => { st with heap := st.heap.set id0 (hSetBefore n ("\n\n")) }
        | none => st
      | none => st
    let afterInject : Except RErr InjState :=
      if r.isGloballyImported then
        .ok { st with sharedDependencies := st.sharedDependencies ++
          (match st.store.get? i with
           | some r2 => r2.root
           | none => []) }
      else
        inclusionLoop opts i r.fromPath r.fullpath r.inclusionRules st
    match afterInject with
    | .error e => .error e
    | .ok st2 =>
      match prevNode with
      | some pid =>
        match st2.heap.get pid with
        | some (.comment _ text) =>
          if !(jsIncludes text ("condition")) then .ok (containerErase st2 loc.1 pid)
          else .ok st2
        | _ => .ok st2
      | none => .ok st2

/-- Injection turns over the ordered import list, in discovery order. -/
def processRecords (opts : PluginOpts) (lookFuel : Nat) :
    List Nat → InjState → Except RErr InjState
  | [], st => .ok st
  | i :: rest, st =>
    match processRecord opts lookFuel st i with
    | .error e => .error e
    | .ok st2 => processRecords opts lookFuel rest st2

/-- Final sweep (lines 20-35): over a snapshot of a container's children,
remove every import node from the current children, give the node that
takes its place a leading newline, and recurse into nodes with children. -/
def removeAllImportsGo : Nat → List Nat → InjState → ParentRef → Except RErr InjState
  | 0, _, _, _ => .error .outOfFuel
  | _ + 1, [], st, _ => .ok st
  | fuel + 1, nid :: rest, st, c =>
    match st.heap.get nid with
    | some (.importNode _ _ _) =>
      let cur := derefParent st c
      let k := idxOf cur nid
      let newList := match k with
        | some n => cur.take n ++ cur.drop (n + 1)
        | none => cur.take (cur.length - 1)
      let st2 := containerSetChildren st c newList
      let st3 := match k with
        | some n =>
          match newList.get? n with
          | some nxt =>
            match st2.heap.get nxt with
            | some hn => { st2 with heap := st2.heap.set nxt (hSetBefore hn ("\n")) }
            | none => st2
          | none => st2
        | none => st2
      removeAllImportsGo fuel rest st3 c
    | some (.rule _ _ _) =>
      match removeAllImportsGo fuel (heapChildren st.heap nid) st (ParentRef.ruleNode nid) with
      | .error e => .error e
      | .ok st2 => removeAllImportsGo fuel rest st2 c
    | _ => removeAllImportsGo fuel rest st c

/-- Result of a root resolver invocation: the final document, the emitted
dependency messages, the file reads in order, and the resolved paths of the
ordered import list. -/
structure RunResult where
  doc : List CNode
  messages : List String
  readLog : List String
  orderedPaths : List String
deriving Repr

/-- Discovery-only entry point: allocate the root tree and walk it. -/
def runDiscovery (opts : PluginOpts) (fs : List (String × List CNode)) (fuel : Nat)
    (tree : List CNode) (fromPath : String) : Except RErr DiscoveryState :=
  let pr := allocTrees ⟨[]⟩ tree
  findImports opts fs fuel { heap := pr.1, store := [], readLog := [] } pr.2
    ParentRef.mainRoot fromPath

/-- Full root invocation of the plugin's `OnceExit` (lines 45-346):
discovery, injection turns in discovery order, prepending the queued
globally-imported nodes, the final import sweep, and materialisation. -/
def runImportPlugin (opts : PluginOpts) (fs : List (String × List CNode)) (fuel : Nat)
    (tree : List CNode) (fromPath : String) : Except RErr RunResult :=
  let pr := allocTrees ⟨[]⟩ tree
  match findImports opts fs fuel { heap := pr.1, store := [], readLog := [] } pr.2
      ParentRef.mainRoot fromPath with
  | .error e => .error e
  | .ok ds =>
    let st0 : InjState :=
      { heap := ds.heap, store := ds.store, rootIds := pr.2,
        sharedDependencies := [], messages := [] }
    match processRecords opts fuel (List.range ds.store.length) st0 with
    | .error e => .error e
    | .ok st1 =>
      let st2 := { st1 with rootIds := st1.sharedDependencies ++ st1.rootIds }
      match removeAllImportsGo fuel st2.rootIds st2 ParentRef.mainRoot with
      | .error e => .error e
      | .ok st3 =>
        match materializeList st3.heap fuel st3.rootIds with
        | none => .error .outOfFuel
        | some doc =>
          .ok { doc := doc
                messages := st3.messages
                readLog := ds.readLog
                orderedPaths := ds.store.map (fun r => r.fullpath) }

mutual
/-- Serialize one node, `raws.before` first, mirroring the postcss printer
closely enough that equal trees give equal bytes. -/
def stringifyNode : CNode → String
  | .importNode b f _ => b ++ ("@import ") ++ f
  | .decl b t => b ++ t
  | .comment b t => b ++ ("/*") ++ t ++ ("*/")
  | .rule b sel ns => b ++ sel ++ (" \x7b") ++ stringifyList ns ++ ("\x7d")

/-- Serialize a node list in order. -/
def stringifyList : List CNode → String
  | [] => ("")
  | c :: cs => stringifyNode c ++ stringifyList cs
end

/-- Serialized bytes of a run's final document. -/
def serializeRun (r : Except RErr RunResult) : Except RErr String :=
  match r with
  | .error e => .error e
  | .ok res => .ok (stringifyList res.doc)

/-- Count of declarations with the given text anywhere in a forest, fuel
bounding the traversal depth. -/
def countDeclFuel (s : String) : Nat → List CNode → Nat
  | 0, _ => 0
  | _ + 1, [] => 0
  | fuel + 1, c :: rest =>
    match c with
    | .decl _ t => (if t == s then 1 else 0) + countDeclFuel s fuel rest
    | .rule _ _ ns => countDeclFuel s fuel ns + countDeclFuel s fuel rest
    | _ => countDeclFuel s fuel rest

/-- Count of declarations with the given text at the top level only. -/
def countDeclTop (s : String) : List CNode → Nat
  | [] => 0
  | CNode.decl _ t :: rest => (if t == s then 1 else 0) + countDeclTop s rest
  | _ :: rest => countDeclTop s rest

/-- Total count of declarations with the given text inside top-level rules
with the given selector. -/
def countDeclInTopRule (sel s : String) (fuel : Nat) : List CNode → Nat
  | [] => 0
  | CNode.rule _ rsel ns :: rest =>
    (if rsel == sel then countDeclFuel s fuel ns else 0)
      + countDeclInTopRule sel s fuel rest
  | _ :: rest => countDeclInTopRule sel s fuel rest

/-- Plugin options used by the concrete runs: resolution that takes the
written filename as the resolved path, and the repo's `&` modifier. -/
def optsAmp : PluginOpts :=
  { resolve := some (fun uri _ => uri), modifier := some ("&") }


/-! ## Concrete documents for the claim runs -/

/-- Final document of a run, the empty list on error. -/
def runDoc (r : Except RErr RunResult) : List CNode :=
  match r with
  | .ok res => res.doc
  | .error _ => []

/-- Storage with two style files: `f.less` holding one declaration and
`g.less` holding one authored rule. -/
def fsC4 (s t : String) : List (String × List CNode) :=
  [(("f.less"), [CNode.decl ("\n") s]),
   (("g.less"), [CNode.rule ("\n") (".gee") [CNode.decl ("\n") t]])]

/-- Root document importing `f.less` twice and `g.less` once at top level,
followed by a directly-authored rule. -/
def docC4 (u : String) : List CNode :=
  [CNode.importNode ("") ("f.less") none,
   CNode.importNode ("\n") ("g.less") none,
   CNode.importNode ("\n") ("f.less") none,
   CNode.rule ("\n") (".body") [CNode.decl ("\n") u]]

/-- Storage where `g.less` holds a modifier-prefixed inclusion-rule scope
that itself imports `f.less` under tag `m2`. -/
def fsC5 (s : String) : List (String × List CNode) :=
  [(("f.less"), [CNode.decl ("\n") s]),
   (("g.less"), [CNode.rule ("\n") ("&.m2") [CNode.importNode ("\n") ("f.less") (some ("m2"))]])]

/-- Root document with an inclusion-rule scope `.m1` importing `f.less`
under tag `m1`, and a top-level import of `g.less`; `f.less` thus has two
inclusion-scoped references and no top-level reference. -/
def docC5 : List CNode :=
  [CNode.rule ("") (".m1") [CNode.importNode ("\n") ("f.less") (some ("m1"))],
   CNode.importNode ("\n") ("g.less") none]

/-- Storage with the single file `f.less` holding one declaration. -/
def fsC6 (s : String) : List (String × List CNode) :=
  [(("f.less"), [CNode.decl ("\n") s])]

/-- Root document importing `f.less` once globally and once from the
inclusion rule `.m`. -/
def docC6 : List CNode :=
  [CNode.importNode ("") ("f.less") none,
   CNode.rule ("\n") (".m") [CNode.importNode ("\n") ("f.less") (some ("m"))]]

/-- Root document with an inclusion-scoped import whose tag `q` has no
matching scope rule anywhere. -/
def docC7a : List CNode :=
  [CNode.importNode ("") ("f.less") (some ("q"))]

/-- Root document where the scope rule `.q` exists but holds no import node
for the imported path. -/
def docC7b : List CNode :=
  [CNode.importNode ("") ("f.less") (some ("q")),
   CNode.rule ("\n") (".q") [CNode.decl ("\n") ("color: red")]]

/-- Storage for the discovery witness: one file. -/
def fsC3w : List (String × List CNode) :=
  [(("a.less"), [CNode.decl ("\n") ("d")])]

/-- Root document importing the same file twice at top level. -/
def docC3w : List CNode :=
  [CNode.importNode ("") ("a.less") none,
   CNode.importNode ("\n") ("a.less") none]

/-- Discovery state produced by walking `docC3w` against `fsC3w`. -/
def discC3w : DiscoveryState :=
  { heap := ⟨[HNode.importNode ("") ("a.less") none,
              HNode.importNode ("\n") ("a.less") none,
              HNode.decl ("\n") ("d")]⟩
    store := [{ root := [2]
                styleNode := 0
                parentRef := ParentRef.mainRoot
                fullpath := ("a.less")
                fromPath := ("main.less")
                isGloballyImported := true
                inclusionRules := [] }]
    readLog := [("a.less")] }

/-- Same storage as `fsC3w` with a shadowed duplicate entry appended: every
lookup gives the same contents, while the representation differs. -/
def fsC9b : List (String × List CNode) :=
  [(("a.less"), [CNode.decl ("\n") ("d")]), (("a.less"), [])]


/-! ## Intermediate states of the claim runs

The pipeline theorems below are assembled stage by stage through
`runImportPlugin_eq`; these are the intermediate states each stage
produces, parameterized by the payload texts. -/

/-- Heap after allocating `docC4`. -/
def heapC4m (u : String) : Heap :=
  ⟨[HNode.importNode ("") ("f.less") none,
    HNode.importNode ("\n") ("g.less") none,
    HNode.importNode ("\n") ("f.less") none,
    HNode.decl ("\n") u,
    HNode.rule ("\n") (".body") [3]]⟩

/-- Discovery state after walking `docC4` against `fsC4`. -/
def discC4 (s t u : String) : DiscoveryState :=
  { heap := ⟨[HNode.importNode ("") ("f.less") none,
              HNode.importNode ("\n") ("g.less") none,
              HNode.importNode ("\n") ("f.less") none,
              HNode.decl ("\n") u,
              HNode.rule ("\n") (".body") [3],
              HNode.decl ("\n") s,
              HNode.decl ("\n") t,
              HNode.rule ("\n") (".gee") [6]]⟩
    store := [{ root := [5]
                styleNode := 0
                parentRef := ParentRef.mainRoot
                fullpath := ("f.less")
                fromPath := ("main.less")
                isGloballyImported := true
                inclusionRules := [] },
              { root := [7]
                styleNode := 1
                parentRef := ParentRef.mainRoot
                fullpath := ("g.less")
                fromPath := ("main.less")
                isGloballyImported := true
                inclusionRules := [] }]
    readLog := [("f.less"), ("g.less")] }

/-- Injection state after the two record turns of the `docC4` run. -/
def injC4b (s t u : String) : InjState :=
  { heap := ⟨[HNode.importNode ("") ("f.less") none,
              HNode.importNode ("\n") ("g.less") none,
              HNode.importNode ("\n") ("f.less") none,
              HNode.decl ("\n") u,
              HNode.rule ("\n") (".body") [3],
              HNode.decl ("\n\n") s,
              HNode.decl ("\n") t,
              HNode.rule ("\n\n") (".gee") [6]]⟩
    store := (discC4 s t u).store
    rootIds := [0, 1, 2, 4]
    sharedDependencies := [5, 7]
    messages := [("f.less"), ("g.less")] }

/-- Heap after allocating `docC5`. -/
def heapC5m : Heap :=
  ⟨[HNode.importNode ("\n") ("f.less") (some ("m1")),
    HNode.rule ("") (".m1") [0],
    HNode.importNode ("\n") ("g.less") none]⟩

/-- Discovery state after walking `docC5` against `fsC5`. -/
def discC5x (s : String) : DiscoveryState :=
  { heap := ⟨[HNode.importNode ("\n") ("f.less") (some ("m1")),
              HNode.rule ("") (".m1") [0],
              HNode.importNode ("\n") ("g.less") none,
              HNode.decl ("\n") s,
              HNode.importNode ("\n") ("f.less") (some ("m2")),
              HNode.rule ("\n") ("&.m2") [4]]⟩
    store := [{ root := [3]
                styleNode := 0
                parentRef := ParentRef.ruleNode 1
                fullpath := ("f.less")
                fromPath := ("main.less")
                isGloballyImported := false
                inclusionRules := [("m1"), ("m2")] },
              { root := [5]
                styleNode := 2
                parentRef := ParentRef.mainRoot
                fullpath := ("g.less")
                fromPath := ("main.less")
                isGloballyImported := true
                inclusionRules := [] }]
    readLog := [("f.less"), ("g.less")] }

/-- Injection state after the two record turns of the `docC5` run: the
shared payload node 3 was spliced into both scope rules. -/
def injC5b (s : String) : InjState :=
  { heap := ⟨[HNode.importNode ("\n") ("f.less") (some ("m1")),
              HNode.rule ("") (".m1") [3],
              HNode.importNode ("\n") ("g.less") none,
              HNode.decl ("\n\n") s,
              HNode.importNode ("\n") ("f.less") (some ("m2")),
              HNode.rule ("\n\n") ("&.m2") [3]]⟩
    store := (discC5x s).store
    rootIds := [1, 2]
    sharedDependencies := [5]
    messages := [("f.less"), ("g.less")] }

/-- Heap after allocating `docC6`. -/
def heapC6m : Heap :=
  ⟨[HNode.importNode ("") ("f.less") none,
    HNode.importNode ("\n") ("f.less") (some ("m")),
    HNode.rule ("\n") (".m") [1]]⟩

/-- Discovery state after walking `docC6` against `fsC6`. -/
def discC6x (s : String) : DiscoveryState :=
  { heap := ⟨[HNode.importNode ("") ("f.less") none,
              HNode.importNode ("\n") ("f.less") (some ("m")),
              HNode.rule ("\n") (".m") [1],
              HNode.decl ("\n") s]⟩
    store := [{ root := [3]
                styleNode := 0
                parentRef := ParentRef.mainRoot
                fullpath := ("f.less")
                fromPath := ("main.less")
                isGloballyImported := true
                inclusionRules := [("m")] }]
    readLog := [("f.less")] }

/-- Injection state after the single record turn of the `docC6` run: the
global branch queued node 3, the scoped branch never ran. -/
def injC6b (s : String) : InjState :=
  { heap := ⟨[HNode.importNode ("") ("f.less") none,
              HNode.importNode ("\n") ("f.less") (some ("m")),
              HNode.rule ("\n") (".m") [1],
              HNode.decl ("\n\n") s]⟩
    store := (discC6x s).store
    rootIds := [0, 2]
    sharedDependencies := [3]
    messages := [("f.less")] }

/-- State of the `docC6` run after the final import sweep: the inclusion
rule lost its (never replaced) import node and is empty. -/
def sweptC6 (s : String) : InjState :=
  { heap := ⟨[HNode.importNode ("") ("f.less") none,
              HNode.importNode ("\n") ("f.less") (some ("m")),
              HNode.rule ("\n") (".m") [],
              HNode.decl ("\n\n") s]⟩
    store := (discC6x s).store
    rootIds := [3, 2]
    sharedDependencies := [3]
    messages := [("f.less")] }


/-! ## Claim theorems: broker -/

/-- C1: `ensureWorker` (`spawnWebpackForEntry`) cannot perform the specified
tracked-set operations in the actual module: the tracked-set binding is
undeclared, so the very first membership check raises `ReferenceError`
instead of reusing or spawning.  Had the binding been declared (the code's
own documented intent), the function would behave exactly as the claim
states: a call whose targets are all tracked returns reused with the state
unchanged, and a call with a new target merges it into the set, kills the
previous worker before spawning, and spawns a worker parameterized with the
full tracked set, returning not reused. -/
theorem c1_ensureWorker_reference_error :
    spawnWebpackForEntry initialBrokerState ["a"]
      = .error (.referenceError ("webpackEntryPoints"))
    ∧ spawnWebpackForEntry brokerDeclaredInit ["a"]
      = .ok (false,
        { httpServer := false
          webpackEntryPoints := some ["a"]
          webpackDevServer := some 0
          events := [BrokerEvent.spawnWorker 0 ["a"]]
          nextId := 1 })
    ∧ spawnWebpackForEntry
        { httpServer := false
          webpackEntryPoints := some ["a"]
          webpackDevServer := some 0
          events := [BrokerEvent.spawnWorker 0 ["a"]]
          nextId := 1 } ["a"]
      = .ok (true,
        { httpServer := false
          webpackEntryPoints := some ["a"]
          webpackDevServer := some 0
          events := [BrokerEvent.spawnWorker 0 ["a"]]
          nextId := 1 })
    ∧ spawnWebpackForEntry
        { httpServer := false
          webpackEntryPoints := some ["a"]
          webpackDevServer := some 0
          events := [BrokerEvent.spawnWorker 0 ["a"]]
          nextId := 1 } ["b"]
      = .ok (false,
        { httpServer := false
          webpackEntryPoints := some ["a", "b"]
          webpackDevServer := some 1
          events := [BrokerEvent.spawnWorker 0 ["a"], BrokerEvent.killWorker 0,
            BrokerEvent.spawnWorker 1 ["a", "b"]]
          nextId := 2 }) := by
  refine ⟨rfl, by decide, by decide, by decide⟩

/-- C2: `findRootEntryForAsset` matches script assets by exact membership
and resolves a `.rtl`-suffixed style asset to the same owning entry as the
unsuffixed one, but the claimed stripping of the `src/less/` source prefix
never happens: `assetWithoutRTL` is a `const` reassigned on line 485, so any
asset under `src/less/` makes the function throw `TypeError` instead of
matching. -/
theorem c2_findRootEntry_behavior :
    findRootEntryForAsset [(["index.js"], ["index.less"])] ("index.js")
      = .ok (some ("index.js"))
    ∧ findRootEntryForAsset [(["index.js"], ["css/styles.less"])] ("css/styles.rtl")
      = .ok (some ("index.js"))
    ∧ findRootEntryForAsset [(["index.js"], ["css/styles.less"])] ("css/styles")
      = .ok (some ("index.js"))
    ∧ findRootEntryForAsset [(["index.js"], ["index.less"])] ("src/less/index")
      = .error (.typeError ("Assignment to constant variable.")) := by
  refine ⟨by decide, by decide, by decide, by decide⟩

/-- C8: `reset()` on the actual module raises `ReferenceError` at
`webpackEntryPoints.clear()` instead of clearing the set.  Had the binding
been declared, `reset()` would behave exactly as the claim states: it closes
the http listener, clears the tracked set, kills the live worker, clears the
handle, and any subsequent non-empty `ensureWorker` call reports not
reused. -/
theorem c8_reset_reference_error :
    brokerReset initialBrokerState = .error (.referenceError ("webpackEntryPoints"))
    ∧ brokerReset
        { httpServer := true
          webpackEntryPoints := some ["a"]
          webpackDevServer := some 0
          events := []
          nextId := 1 }
      = .ok
        { httpServer := false
          webpackEntryPoints := some []
          webpackDevServer := none
          events := [BrokerEvent.closeHttp, BrokerEvent.killWorker 0]
          nextId := 1 }
    ∧ ∀ (t : String) (ts : List String),
        spawnReused (spawnWebpackForEntry
          { httpServer := false
            webpackEntryPoints := some []
            webpackDevServer := none
            events := [BrokerEvent.closeHttp, BrokerEvent.killWorker 0]
            nextId := 1 } (t :: ts)) = some false := by
  refine ⟨rfl, rfl, fun t ts => rfl⟩

/-- C10: the tracked-set binding `webpackEntryPoints` is undeclared in the
broker module (its declaration is commented out on line 308) yet exported at
module load and dereferenced by `reset` and `spawnWebpackForEntry`; loading
the module and every operation that checks or mutates the tracked set raises
`ReferenceError` instead of performing the specified set operations. -/
theorem c10_undeclared_binding_reference_errors :
    initialBrokerState.webpackEntryPoints = none
    ∧ brokerModuleLoad = .error (.referenceError ("webpackEntryPoints"))
    ∧ brokerReset initialBrokerState = .error (.referenceError ("webpackEntryPoints"))
    ∧ ∀ (t : String) (ts : List String),
        spawnWebpackForEntry initialBrokerState (t :: ts)
          = .error (.referenceError ("webpackEntryPoints")) := by
  refine ⟨rfl, rfl, rfl, fun t ts => rfl⟩

/-! ## Claim theorems: style import resolver -/

set_option maxHeartbeats 800000

/-- Stage composition for a root resolver invocation: given the results of
allocation, discovery, the injection turns, the final sweep and
materialisation, the whole run is determined.  Lets each stage be settled
against a literal intermediate state. -/
theorem runImportPlugin_eq (opts : PluginOpts) (fs : List (String × List CNode))
    (fuel : Nat) (tree : List CNode) (fromPath : String) (hp : Heap) (ids : List Nat)
    (ds : DiscoveryState) (st1 st3 : InjState) (doc : List CNode)
    (ha : allocTrees ⟨[]⟩ tree = (hp, ids))
    (hd : findImports opts fs fuel { heap := hp, store := [], readLog := [] } ids
        ParentRef.mainRoot fromPath = .ok ds)
    (hr : processRecords opts fuel (List.range ds.store.length)
        { heap := ds.heap, store := ds.store, rootIds := ids,
          sharedDependencies := [], messages := [] } = .ok st1)
    (hs : removeAllImportsGo fuel (st1.sharedDependencies ++ st1.rootIds)
        { st1 with rootIds := st1.sharedDependencies ++ st1.rootIds }
        ParentRef.mainRoot = .ok st3)
    (hm : materializeList st3.heap fuel st3.rootIds = some doc) :
    runImportPlugin opts fs fuel tree fromPath
      = .ok { doc := doc, messages := st3.messages, readLog := ds.readLog,
              orderedPaths := ds.store.map (fun r => r.fullpath) } := by
  unfold runImportPlugin
  rw [ha]
  simp only [hd, hr, hs, hm]

/-- C4: a file with at least one top-level import reference has exactly one
copy of its subtree's top-level nodes prepended ahead of all
directly-authored rules, and several globally imported files appear in
first-discovery order: here `f.less` (imported twice) appears once, before
`g.less`'s subtree, both ahead of the authored `.body` rule, for arbitrary
file contents `s`, `t` and authored declaration `u`. -/
theorem c4_global_prepend_once_in_order (s t u : String) :
    runImportPlugin optsAmp (fsC4 s t) 10 (docC4 u) ("main.less")
      = .ok { doc := [CNode.decl ("\n\n") s,
                      CNode.rule ("\n\n") (".gee") [CNode.decl ("\n") t],
                      CNode.rule ("\n") (".body") [CNode.decl ("\n") u]]
              messages := [("f.less"), ("g.less")]
              readLog := [("f.less"), ("g.less")]
              orderedPaths := [("f.less"), ("g.less")] } :=
  runImportPlugin_eq optsAmp (fsC4 s t) 10 (docC4 u) ("main.less")
    (heapC4m u) [0, 1, 2, 4] (discC4 s t u) (injC4b s t u)
    { injC4b s t u with rootIds := [5, 7, 4] }
    [CNode.decl ("\n\n") s,
     CNode.rule ("\n\n") (".gee") [CNode.decl ("\n") t],
     CNode.rule ("\n") (".body") [CNode.decl ("\n") u]]
    rfl rfl rfl rfl rfl

/-- C5: a file referenced only from inclusion-rule scopes is spliced in
place of the matching import node inside each scope - here `.m1`, found
among the root document's direct children, and `&.m2`, the
modifier-prefixed variant found inside another record's subtree - so its
content is inlined exactly once per scope and zero times at top level. -/
theorem c5_scoped_inlined_once_per_scope (s : String) :
    runImportPlugin optsAmp (fsC5 s) 10 docC5 ("main.less")
      = .ok { doc := [CNode.rule ("\n\n") ("&.m2") [CNode.decl ("\n\n") s],
                      CNode.rule ("") (".m1") [CNode.decl ("\n\n") s]]
              messages := [("f.less"), ("g.less")]
              readLog := [("f.less"), ("g.less")]
              orderedPaths := [("f.less"), ("g.less")] }
    ∧ countDeclTop ("payload")
        (runDoc (runImportPlugin optsAmp (fsC5 ("payload")) 10 docC5 ("main.less"))) = 0
    ∧ countDeclInTopRule (".m1") ("payload") 10
        (runDoc (runImportPlugin optsAmp (fsC5 ("payload")) 10 docC5 ("main.less"))) = 1
    ∧ countDeclInTopRule ("&.m2") ("payload") 10
        (runDoc (runImportPlugin optsAmp (fsC5 ("payload")) 10 docC5 ("main.less"))) = 1
    ∧ countDeclFuel ("payload") 10
        (runDoc (runImportPlugin optsAmp (fsC5 ("payload")) 10 docC5 ("main.less"))) = 2 :=
  ⟨runImportPlugin_eq optsAmp (fsC5 s) 10 docC5 ("main.less")
      heapC5m [1, 2] (discC5x s) (injC5b s)
      { injC5b s with rootIds := [5, 1] }
      [CNode.rule ("\n\n") ("&.m2") [CNode.decl ("\n\n") s],
       CNode.rule ("") (".m1") [CNode.decl ("\n\n") s]]
      rfl rfl rfl rfl rfl,
   rfl, rfl, rfl, rfl⟩

/-- C6 counterexample: a file imported once globally and once from the
inclusion rule `.m` does not get two copies: the run leaves the `.m` scope
empty (zero copies inside it) and produces one copy in total, because the
global branch on line 213 excludes the scoped branch. -/
theorem c6_counterexample_one_copy_only :
    runImportPlugin optsAmp (fsC6 ("payload")) 10 docC6 ("main.less")
      = .ok { doc := [CNode.decl ("\n\n") ("payload"), CNode.rule ("\n") (".m") []]
              messages := [("f.less")]
              readLog := [("f.less")]
              orderedPaths := [("f.less")] }
    ∧ ¬ (countDeclFuel ("payload") 10
          (runDoc (runImportPlugin optsAmp (fsC6 ("payload")) 10 docC6 ("main.less"))) = 2
        ∧ countDeclInTopRule (".m") ("payload") 10
          (runDoc (runImportPlugin optsAmp (fsC6 ("payload")) 10 docC6 ("main.less"))) = 1) :=
  ⟨rfl, by decide⟩

/-- C6 amended: a file both globally imported and referenced from an
inclusion rule gets only the global behavior: one copy prepended at top
level and zero copies inside the inclusion rule's scope, whose import node
is scrubbed by the final sweep. -/
theorem c6_amended_global_branch_only (s : String) :
    runImportPlugin optsAmp (fsC6 s) 10 docC6 ("main.less")
      = .ok { doc := [CNode.decl ("\n\n") s, CNode.rule ("\n") (".m") []]
              messages := [("f.less")]
              readLog := [("f.less")]
              orderedPaths := [("f.less")] } :=
  runImportPlugin_eq optsAmp (fsC6 s) 10 docC6 ("main.less")
    heapC6m [0, 2] (discC6x s) (injC6b s) (sweptC6 s)
    [CNode.decl ("\n\n") s, CNode.rule ("\n") (".m") []]
    rfl rfl rfl rfl rfl

/-- C7: during injection of an inclusion-scoped import, a missing scoping
rule aborts the run with the missing-inclusion-rule error, and a matched
scope without the import node to replace aborts with the
missing-import-to-replace error, both surfaced to the caller with the
descriptive message. -/
theorem c7_injection_fatal_errors :
    runImportPlugin optsAmp (fsC6 ("payload")) 10 docC7a ("main.less")
      = .error (.thrown (("Missing inclusion rule selector q")))
    ∧ runImportPlugin optsAmp (fsC6 ("payload")) 10 docC7b ("main.less")
      = .error (.thrown (("Unable to inject inclusion import, missing @import f.less"))) :=
  ⟨rfl, rfl⟩

/-! ## Claim theorems: discovery invariants and determinism -/

/-- Merging a further reference preserves the record's resolved path. -/
theorem mergeImportRec_fullpath (r : ImportRec) (t : Option String) :
    (mergeImportRec r t).fullpath = r.fullpath := by
  cases t <;> rfl

/-- Setting an element with the same key image leaves the key map unchanged. -/
theorem map_set_fullpath (g : ImportRec → String) :
    ∀ (s : List ImportRec) (i : Nat) (v r : ImportRec),
      s.get? i = some r → g v = g r → (s.set i v).map g = s.map g := by
  intro s
  induction s with
  | nil => intro i v r h; cases h
  | cons a tl ih =>
    intro i v r hget hgv
    cases i with
    | zero =>
      simp only [List.get?] at hget
      cases hget
      simp [List.set, hgv]
    | succ n =>
      simp only [List.get?] at hget
      simp [List.set, ih n v r hget hgv]

/-- A record update through `storeUpdate` that preserves paths leaves the
path map unchanged. -/
theorem storeUpdate_map_fullpath (s : List ImportRec) (i : Nat)
    (f : ImportRec → ImportRec) (hf : ∀ r, (f r).fullpath = r.fullpath) :
    (storeUpdate s i f).map (fun r => r.fullpath) = s.map (fun r => r.fullpath) := by
  unfold storeUpdate
  cases h : s.get? i with
  | none => rfl
  | some r => exact map_set_fullpath _ s i (f r) r h (hf r)

/-- A failed `imports` map lookup means the path is in no record. -/
theorem storeFindIdxGo_none_not_mem (p : String) :
    ∀ (s : List ImportRec) (n : Nat), storeFindIdxGo p s n = none →
      p ∉ s.map (fun r => r.fullpath) := by
  intro s
  induction s with
  | nil => intro n h hmem; simp at hmem
  | cons a tl ih =>
    intro n h hmem
    unfold storeFindIdxGo at h
    by_cases hc : a.fullpath = p
    · simp [hc] at h
    · simp only [List.map, List.mem_cons] at hmem
      rcases hmem with he | hm
      · exact hc he.symm
      · have h2 : storeFindIdxGo p tl (n + 1) = none := by
          simpa [hc] using h
        exact ih (n + 1) h2 hm

/-- Appending a fresh element preserves distinctness. -/
theorem nodup_append_singleton (l : List String) (a : String)
    (h : l.Nodup) (ha : a ∉ l) : (l ++ [a]).Nodup := by
  simp [List.nodup_append, h, ha]

/-- Invariant of the discovery walk: the read log stays duplicate-free and
always equals the path map of the record store, so a successful walk reads
each distinct path at most once and keeps exactly one record per path. -/
theorem findImports_inv (opts : PluginOpts) (fs : List (String × List CNode)) :
    ∀ (fuel : Nat) (st : DiscoveryState) (ids : List Nat) (parent : ParentRef)
      (fromPath : String) (stFin : DiscoveryState),
      findImports opts fs fuel st ids parent fromPath = .ok stFin →
      st.readLog.Nodup → st.store.map (fun r => r.fullpath) = st.readLog →
      stFin.readLog.Nodup ∧ stFin.store.map (fun r => r.fullpath) = stFin.readLog := by
  intro fuel
  induction fuel with
  | zero =>
    intro st ids parent fromPath stFin h
    simp [findImports] at h
  | succ n ih =>
    intro st ids parent fromPath stFin h hnd hmap
    cases ids with
    | nil =>
      simp only [findImports] at h
      cases h
      exact ⟨hnd, hmap⟩
    | cons nid rest =>
      simp only [findImports] at h
      split at h
      · cases h
      case _ filename0 fromInclusionRule heq =>
        split at h
        case _ i hfi =>
          refine ih _ rest parent fromPath stFin h hnd ?_
          rw [storeUpdate_map_fullpath _ _ _ (fun r => mergeImportRec_fullpath r fromInclusionRule)]
          exact hmap
        case _ hfi =>
          split at h
          · cases h
          case _ contents hlk =>
            split at h
            · cases h
            case _ st3 heq2 =>
              have hnotmem : optResolve opts (stripQuotes filename0) (jsDirname fromPath)
                  ∉ st.readLog := by
                rw [← hmap]
                exact storeFindIdxGo_none_not_mem _ st.store 0 hfi
              have hmid := ih _ _ _ _ st3 heq2
                (nodup_append_singleton st.readLog _ hnd hnotmem)
                (by simp [hmap])
              exact ih st3 rest parent fromPath stFin h hmid.1 hmid.2
      case _ sel children heq =>
        split at h
        · cases h
        case _ st2 heq2 =>
          have hmid := ih st children (ParentRef.ruleNode nid) fromPath st2 heq2 hnd hmap
          exact ih st2 rest parent fromPath stFin h hmid.1 hmid.2
      case _ heq hne hni =>
        exact ih st rest parent fromPath stFin h hnd hmap

/-- C3: for every style dependency graph (any storage, resolve strategy and
root tree), a successful discovery walk reads each distinct fully-resolved
path at most once, and the record store holds exactly one Import Record per
unique path - the path map of the store is exactly the duplicate-free read
log, so all references to a path share the single record merged in place. -/
theorem c3_read_once_one_record_per_path (opts : PluginOpts)
    (fs : List (String × List CNode)) (fuel : Nat) (tree : List CNode)
    (fromPath : String) (st : DiscoveryState)
    (h : runDiscovery opts fs fuel tree fromPath = .ok st) :
    st.readLog.Nodup ∧ st.store.map (fun r => r.fullpath) = st.readLog
      ∧ (st.store.map (fun r => r.fullpath)).Nodup
      ∧ ∀ p, st.readLog.count p ≤ 1 := by
  unfold runDiscovery at h
  have h2 := findImports_inv opts fs fuel _ _ ParentRef.mainRoot fromPath st h
    (by simp) (by simp)
  obtain ⟨hnd, hmap⟩ := h2
  exact ⟨hnd, hmap, by rw [hmap]; exact hnd,
    fun p => List.nodup_iff_count_le_one.mp hnd p⟩

/-- Witness: the discovery walk over a document importing the same file
twice reads it once and keeps one record. -/
theorem c3_read_once_witness :
    discC3w.readLog.Nodup ∧ discC3w.store.map (fun r => r.fullpath) = discC3w.readLog
      ∧ (discC3w.store.map (fun r => r.fullpath)).Nodup
      ∧ ∀ p, discC3w.readLog.count p ≤ 1 :=
  c3_read_once_one_record_per_path optsAmp fsC3w 10 docC3w ("main.less") discC3w rfl

/-- Discovery depends on the modelled file storage only through lookups:
storages with identical lookups walk identically. -/
theorem findImports_fs_congr (opts : PluginOpts) (fs1 fs2 : List (String × List CNode))
    (hfs : ∀ p, fsLookup fs1 p = fsLookup fs2 p) :
    ∀ (fuel : Nat) (st : DiscoveryState) (ids : List Nat) (parent : ParentRef)
      (fromPath : String),
      findImports opts fs1 fuel st ids parent fromPath
        = findImports opts fs2 fuel st ids parent fromPath := by
  intro fuel
  induction fuel with
  | zero => intro st ids parent fromPath; rfl
  | succ n ih =>
    intro st ids parent fromPath
    cases ids with
    | nil => rfl
    | cons nid rest =>
      simp only [findImports]
      split
      · rfl
      · split
        · exact ih _ rest parent fromPath
        · rw [hfs]
          split
          · rfl
          · rw [ih]
            split
            · rfl
            · exact ih _ rest parent fromPath
      · rw [ih]
        split
        · rfl
        · exact ih _ rest parent fromPath
      · exact ih _ rest parent fromPath

/-- C9: resolution is deterministic in its inputs: two runs over the same
root tree, base path, resolve configuration and file contents (storages
with identical lookups) produce the same result and byte-identical
serialized output, including the same ordered read log. -/
theorem c9_resolver_deterministic (opts : PluginOpts)
    (fs1 fs2 : List (String × List CNode)) (fuel : Nat) (tree : List CNode)
    (fromPath : String) (hfs : ∀ p, fsLookup fs1 p = fsLookup fs2 p) :
    runImportPlugin opts fs1 fuel tree fromPath
      = runImportPlugin opts fs2 fuel tree fromPath
    ∧ serializeRun (runImportPlugin opts fs1 fuel tree fromPath)
      = serializeRun (runImportPlugin opts fs2 fuel tree fromPath)
    ∧ (runImportPlugin opts fs1 fuel tree fromPath).map (fun res => res.readLog)
      = (runImportPlugin opts fs2 fuel tree fromPath).map (fun res => res.readLog) := by
  have hcongr := findImports_fs_congr opts fs1 fs2 hfs
  have h : runImportPlugin opts fs1 fuel tree fromPath
      = runImportPlugin opts fs2 fuel tree fromPath := by
    unfold runImportPlugin
    simp only [hcongr]
  exact ⟨h, by rw [h], by rw [h]⟩

/-- Witness: a storage and a reshaped storage with a shadowed duplicate
entry have identical lookups, so the two runs agree byte for byte. -/
theorem c9_resolver_deterministic_witness :
    runImportPlugin optsAmp fsC3w 10 docC3w ("main.less")
      = runImportPlugin optsAmp fsC9b 10 docC3w ("main.less")
    ∧ serializeRun (runImportPlugin optsAmp fsC3w 10 docC3w ("main.less"))
      = serializeRun (runImportPlugin optsAmp fsC9b 10 docC3w ("main.less"))
    ∧ (runImportPlugin optsAmp fsC3w 10 docC3w ("main.less")).map (fun res => res.readLog)
      = (runImportPlugin optsAmp fsC9b 10 docC3w ("main.less")).map (fun res => res.readLog) :=
  c9_resolver_deterministic optsAmp fsC3w fsC9b 10 docC3w ("main.less")
    (fun p => by
      by_cases h : ("a.less" : String) = p
      · simp [fsLookup, fsC3w, fsC9b, List.find?, h]
      · have hb : (("a.less" : String) == p) = false := beq_eq_false_iff_ne.mpr h
        simp [fsLookup, fsC3w, fsC9b, List.find?, hb])
